import Mathlib

/-! # Cross-module inlining eligibility (`gen/function-inlining.cpp`)

A shallow embedding of the three functions of `gen/function-inlining.cpp`

* `isInlineCandidate` together with the visitor `MoreThanXStatements`,
* `alreadyOrWillBeDefined`,
* `defineAsExternallyAvailable`,

followed by the properties proved about them.

Conventions of the embedding.

* `unsigned` values of the source are natural numbers; an increment that can
  wrap is written with an explicit `% 2 ^ 32`.
* The frontend objects (`FuncDeclaration`, `Statement`, `Global`) are records of
  the attributes this file reads or writes.  A method of the frontend that only
  reads (`isInstantiated()`, `inNonRoot()`, `isNested()`, `hasWeakUDA`, ...) is a
  field of the record.
* The calls that leave this file and change the state (`functionSemantic3`,
  `Module::runDeferredSemantic3`) are fields of a `Frontend` record, so every
  theorem holds for every behaviour of the frontend.
* `defineAsExternallyAvailable` returns `none` when the C++ program would not
  return at all: a failed `assert`, in a build that keeps assertions, or a null
  `fbody` dereference.
-/

namespace FunctionInlining

/-! ## The statement tree and the early-stopping walker -/

mutual
/-- A `Statement` node of the frontend AST, reduced to what the walker sees: the
ordered list of nodes directly below it. -/
inductive Statement where
  | mk (children : List Node) : Statement
/-- Modelled from the spec: the node kinds the walker hands to a visitor
(`statement.h`, `expression.h`, `declaration.h`, `init.h`, `dsymbol.h` are not
part of this file).  Only statements have children to descend into; expressions,
declarations, initializers and symbols are leaves. -/
inductive Node where
  | statement (s : Statement) : Node
  | expression : Node
  | declaration : Node
  | initializer : Node
  | dsymbol : Node
end

/-- The largest value of the C++ type `unsigned`. -/
def UINT_MAX : Nat := 2 ^ 32 - 1

/-- The visitor `struct MoreThanXStatements : public StoppableVisitor`.
`threshold` and `count` are its two `unsigned` members and `stop` is the member
inherited from `StoppableVisitor`.  `visitCalls` is a ghost field, absent from the
source: it counts the invocations of `visit(Statement *)` and is never read. -/
structure MoreThanXStatements where
  threshold : Nat
  count : Nat
  stop : Bool
  visitCalls : Nat
deriving DecidableEq

/-- The constructor `explicit MoreThanXStatements(unsigned X) : threshold(X), count(0)`;
`StoppableVisitor` initialises `stop` to `false`. -/
def MoreThanXStatements.new (X : Nat) : MoreThanXStatements :=
  { threshold := X, count := 0, stop := false, visitCalls := 0 }

/-- The override `void visit(Statement *stmt)`: `count++; if (count > threshold) stop = true;`. -/
def MoreThanXStatements.visitStatement (v : MoreThanXStatements) : MoreThanXStatements :=
  let count := (v.count + 1) % 2 ^ 32
  if count > v.threshold then
    { v with count := count, stop := true, visitCalls := v.visitCalls + 1 }
  else
    { v with count := count, visitCalls := v.visitCalls + 1 }

/-- The overrides `void visit(Expression *) {}`, `visit(Declaration *) {}`, `visit(Initializer *) {}` and
`visit(Dsymbol *) {}`: all four do nothing. -/
def MoreThanXStatements.visitOther (v : MoreThanXStatements) : MoreThanXStatements := v

mutual
/-- Modelled from the spec: `RecursiveWalker` of `gen/recursivevisitor.h`, which is
not part of this file, as `isInlineCandidate` builds it (`RecursiveWalker walker(&statementCounter, false)`).
Pre-order: the visitor is called on the statement first; once the visitor has set
`stop` the walker neither descends nor goes on to a later sibling. -/
def RecursiveWalker.visitStatement (v : MoreThanXStatements) : Statement → MoreThanXStatements
  | .mk children =>
    let v1 := v.visitStatement
    if v1.stop then v1 else RecursiveWalker.recurseAll v1 children
/-- Modelled from the spec: the walker on one child node.  A statement is walked;
the other node kinds are visited as no-ops and not descended into. -/
def RecursiveWalker.recurse (v : MoreThanXStatements) : Node → MoreThanXStatements
  | .statement s => RecursiveWalker.visitStatement v s
  | .expression => v.visitOther
  | .declaration => v.visitOther
  | .initializer => v.visitOther
  | .dsymbol => v.visitOther
/-- Modelled from the spec: the walker on the children of a node, in order, leaving
as soon as the visitor has set `stop`. -/
def RecursiveWalker.recurseAll (v : MoreThanXStatements) : List Node → MoreThanXStatements
  | [] => v
  | n :: rest =>
    let v1 := RecursiveWalker.recurse v n
    if v1.stop then v1 else RecursiveWalker.recurseAll v1 rest
end

mutual
/-- The number of statement nodes of a statement tree: what a complete pre-order
walk, one that never stops early, visits. -/
def Statement.count : Statement → Nat
  | .mk children => 1 + Node.countAll children
/-- The number of statement nodes below a child node. -/
def Node.count : Node → Nat
  | .statement s => s.count
  | .expression => 0
  | .declaration => 0
  | .initializer => 0
  | .dsymbol => 0
/-- The number of statement nodes below a list of child nodes. -/
def Node.countAll : List Node → Nat
  | [] => 0
  | n :: rest => n.count + Node.countAll rest
end


/-! ## Frontend objects read by this file -/

/-- Modelled from the spec: the inlining intent `enum PINLINE` of the frontend
(`globals.h`, not part of this file), with the constant names the source uses. -/
inductive PINLINE where
  | PINLINEdefault
  | PINLINEnever
  | PINLINEalways
deriving DecidableEq

/-- Modelled from the spec: the ordered resolution stages `enum PASS` of the
frontend (`dsymbol.h`, not part of this file), with the constant names the
source uses.  `PASSsemantic3` is the stage at which the body is being resolved,
`PASSsemantic3done` the stage at which it is fully resolved. -/
inductive PASS where
  | PASSinit
  | PASSsemantic
  | PASSsemanticdone
  | PASSsemantic2
  | PASSsemantic2done
  | PASSsemantic3
  | PASSsemantic3done
  | PASSinline
  | PASSinlinedone
  | PASSobj
deriving DecidableEq

/-- The integer value of a stage, by which C++ compares two stages. -/
def PASS.toNat : PASS → Nat
  | .PASSinit => 0
  | .PASSsemantic => 1
  | .PASSsemanticdone => 2
  | .PASSsemantic2 => 3
  | .PASSsemantic2done => 4
  | .PASSsemantic3 => 5
  | .PASSsemantic3done => 6
  | .PASSinline => 7
  | .PASSinlinedone => 8
  | .PASSobj => 9

/-- An interned `Identifier` of the frontend; two identifiers are the same
object exactly when their names are equal. -/
structure Identifier where
  name : String
deriving DecidableEq

/-- The identifier `Id::object`. -/
def Id.object : Identifier := ⟨"object"⟩

/-- A `Module`, reduced to the member this file reads. -/
structure Module where
  ident : Identifier
deriving DecidableEq

/-- A `FuncDeclaration`, reduced to the members and query methods this file
uses.  `toParent2IsFuncDeclaration` is the value of the expression
`toParent2()->isFuncDeclaration()`: the enclosing function, or null.  A value of
this type is a finite tree, so every nesting chain is finite. -/
structure FuncDeclaration where
  neverInline : Bool
  inlining : PINLINE
  isUnitTestDeclaration : Bool
  isFuncAliasDeclaration : Bool
  fbody : Option Statement
  isInvariantDeclaration : Bool
  getModule : Module
  semanticRun : PASS
  isInstantiated : Bool
  inNonRoot : Bool
  isNested : Bool
  toParent2IsFuncDeclaration : Option FuncDeclaration
  hasWeakUDA : Bool
  naked : Bool

/-- Modelled from the spec: the process-wide error-suppression state `global`
(`globals.h`, not part of this file).  `gag` is the suppression depth, `errors`
the diagnostics surfaced to the user, `gaggedErrors` the counter diagnostics are
diverted to while a scope is open, `gaggedForInlining` the flag this file
sets. -/
structure Global where
  gag : Nat
  errors : Nat
  gaggedErrors : Nat
  gaggedForInlining : Bool
deriving DecidableEq

/-- Modelled from the spec: `Global::startGagging`, which opens a suppression
scope and returns the value of the diverted counter at that moment. -/
def Global.startGagging (g : Global) : Nat × Global :=
  (g.gaggedErrors, { g with gag := g.gag + 1 })

/-- Modelled from the spec: `Global::endGagging`, which closes the scope, reports
whether any diagnostic occurred during its lifetime and discards the ones that
did. -/
def Global.endGagging (g : Global) (oldGagged : Nat) : Bool × Global :=
  (g.gaggedErrors != oldGagged, { g with gag := g.gag - 1, gaggedErrors := oldGagged })

/-- Modelled from the spec: emission of one diagnostic.  While a scope is open
it is diverted into the counter instead of being surfaced. -/
def Global.error (g : Global) : Global :=
  if g.gag = 0 then { g with errors := g.errors + 1 }
  else { g with gaggedErrors := g.gaggedErrors + 1 }

/-- Emission of `n` diagnostics, one after the other. -/
def Global.emit (g : Global) : Nat → Global
  | 0 => g
  | n + 1 => (g.emit n).error

/-- What a call of `fdecl.functionSemantic3()` does: its return value, the
declaration as the call leaves it and the number of diagnostics it emits. -/
structure Semantic3Outcome where
  result : Bool
  fdecl : FuncDeclaration
  diagnostics : Nat

/-- What a call of `Module::runDeferredSemantic3()` does: the declaration as the
call leaves it and the number of diagnostics it emits. -/
structure DeferredOutcome where
  fdecl : FuncDeclaration
  diagnostics : Nat

/-- Everything this file takes from outside: the LLVM version the compiler is
built against (`LDC_LLVM_VER`), whether it is built with `NDEBUG` defined, in
which case every `assert` is compiled out, the toggle `willCrossModuleInline()`
of `gen/optimizer.h`, and the two resolution calls, each an arbitrary function
of the declaration and the global state it is called in. -/
structure Frontend where
  LDC_LLVM_VER : Nat
  NDEBUG : Bool
  willCrossModuleInline : Bool
  functionSemantic3 : FuncDeclaration → Global → Semantic3Outcome
  runDeferredSemantic3 : FuncDeclaration → Global → DeferredOutcome

/-- The state `defineAsExternallyAvailable` runs in: the declaration, the global
error-suppression state, and a ghost counter of the calls of
`functionSemantic3` made so far. -/
structure State where
  fdecl : FuncDeclaration
  global : Global
  semantic3Calls : Nat

/-! ## The functions of `gen/function-inlining.cpp` -/

/-- The function `isInlineCandidate`.  `none` stands for the dereference of a
null `fdecl.fbody`. -/
def isInlineCandidate (fdecl : FuncDeclaration) : Option Bool :=
  let statementThreshold : Nat := 10
  let statementCounter := MoreThanXStatements.new statementThreshold
  match fdecl.fbody with
  | none => none
  | some fbody =>
    let statementCounter := RecursiveWalker.visitStatement statementCounter fbody
    some (decide (statementCounter.count ≤ statementThreshold))

/-- The function `alreadyOrWillBeDefined`: the loop over `f`, one recursive call
per iteration. -/
def alreadyOrWillBeDefined : FuncDeclaration → Bool
  | f@{ toParent2IsFuncDeclaration := parent, .. } =>
    if !f.isInstantiated && f.inNonRoot then false
    else if f.isNested then
      match parent with
      | some f1 => alreadyOrWillBeDefined f1
      | none => true
    else true

/-- The block `{ ... }` of `defineAsExternallyAvailable` that starts at
"Do semantic analysis", together with the `naked` check and the final
`return true` that follow it.  The `assert` of line 204 is there only in a
build without `NDEBUG`; `none` stands for its failure. -/
def semanticAnalysis (fe : Frontend) (s : State) : Option (Bool × State) :=
  let (errors, g1) := s.global.startGagging
  let g2 := { g1 with gaggedForInlining := true }
  let r := fe.functionSemantic3 s.fdecl g2
  let g3 := g2.emit r.diagnostics
  let calls := s.semantic3Calls + 1
  let (fdecl4, g4, semantic_error) :=
    if r.result then
      let d := fe.runDeferredSemantic3 r.fdecl g3
      (d.fdecl, g3.emit d.diagnostics, false)
    else
      (r.fdecl, g3, true)
  let g5 := { g4 with gaggedForInlining := false }
  let (anyErrs, g6) := g5.endGagging errors
  let s1 : State := { fdecl := fdecl4, global := g6, semantic3Calls := calls }
  if anyErrs || semantic_error then some (false, s1)
  else if fe.NDEBUG = false ∧ ¬ (PASS.PASSsemantic3done.toNat ≤ fdecl4.semanticRun.toNat) then
    none
  else if fdecl4.naked then some (false, s1)
  else some (true, s1)

/-- The function `defineAsExternallyAvailable`. -/
def defineAsExternallyAvailable (fe : Frontend) (s : State) : Option (Bool × State) :=
  let fdecl := s.fdecl
  if fe.LDC_LLVM_VER < 307 then some (false, s)
  else if !fe.willCrossModuleInline then some (false, s)
  else if fdecl.neverInline || fdecl.inlining == PINLINE.PINLINEnever then some (false, s)
  else if !(fdecl.inlining == PINLINE.PINLINEalways) && !fe.willCrossModuleInline then
    some (false, s)
  else if fdecl.isUnitTestDeclaration then some (false, s)
  else if fdecl.isFuncAliasDeclaration then some (false, s)
  else if fdecl.fbody.isNone then some (false, s)
  else if fdecl.isInvariantDeclaration then some (false, s)
  else if fdecl.getModule.ident == Id.object then some (false, s)
  else if PASS.PASSsemantic3.toNat ≤ fdecl.semanticRun.toNat then some (false, s)
  else if alreadyOrWillBeDefined fdecl then some (false, s)
  else if fdecl.hasWeakUDA then some (false, s)
  else if fdecl.inlining != PINLINE.PINLINEalways then
    match isInlineCandidate fdecl with
    | none => none
    | some false => some (false, s)
    | some true => semanticAnalysis fe s
  else semanticAnalysis fe s

/-! ## Notions used to state the properties -/

/-- What a walk does to a visitor that has not stopped and whose count is within
the threshold: it adds the statements it meets, up to one above the threshold. -/
def WalkResult (v v1 : MoreThanXStatements) (c : Nat) : Prop :=
  v1.threshold = v.threshold ∧
  v1.count = min (v.count + c) (v.threshold + 1) ∧
  v1.stop = decide (v.threshold < v.count + c) ∧
  v1.visitCalls = v.visitCalls + (min (v.count + c) (v.threshold + 1) - v.count)


/-- Checks 1 to 9 of `defineAsExternallyAvailable` all let the declaration
through: every early `return false` up to and including the `hasWeakUDA` one is
not taken. -/
def passesChecks1to9 (fe : Frontend) (fdecl : FuncDeclaration) : Bool :=
  decide (307 ≤ fe.LDC_LLVM_VER) && fe.willCrossModuleInline
    && !fdecl.neverInline && fdecl.inlining != PINLINE.PINLINEnever
    && !fdecl.isUnitTestDeclaration && !fdecl.isFuncAliasDeclaration
    && fdecl.fbody.isSome && !fdecl.isInvariantDeclaration
    && fdecl.getModule.ident != Id.object
    && decide (fdecl.semanticRun.toNat < PASS.PASSsemantic3.toNat)
    && !alreadyOrWillBeDefined fdecl && !fdecl.hasWeakUDA

/-- The declaration reaches the speculative step: checks 1 to 9 let it through
and so does check 10, the statement-count heuristic, which is skipped for
`PINLINEalways`. -/
def reachesSemanticAnalysis (fe : Frontend) (fdecl : FuncDeclaration) : Bool :=
  passesChecks1to9 fe fdecl
    && (fdecl.inlining == PINLINE.PINLINEalways || isInlineCandidate fdecl == some true)

/-- The chain `alreadyOrWillBeDefined` walks when nothing stops it early: the
declaration itself, then, as long as the current declaration is nested, the
function that encloses it. -/
def walkedChain : FuncDeclaration → List FuncDeclaration
  | f@{ toParent2IsFuncDeclaration := parent, .. } =>
    f :: (if f.isNested then
            match parent with
            | some f1 => walkedChain f1
            | none => []
          else [])

/-- The link `d` of a chain is not an instantiation and belongs to a non-root
unit. -/
def importedLink (d : FuncDeclaration) : Bool :=
  !d.isInstantiated && d.inNonRoot

/-- The global state in which `semanticAnalysis` calls `functionSemantic3`: the
scope has been opened and `gaggedForInlining` set. -/
def gaggedGlobal (g : Global) : Global :=
  { g.startGagging.2 with gaggedForInlining := true }

/-- What the call `fdecl.functionSemantic3()` made by `semanticAnalysis` does. -/
def semantic3Outcome (fe : Frontend) (s : State) : Semantic3Outcome :=
  fe.functionSemantic3 s.fdecl (gaggedGlobal s.global)

/-- What the call `Module::runDeferredSemantic3()` does when `semanticAnalysis`
makes it, that is when `functionSemantic3` has returned true. -/
def deferredOutcome (fe : Frontend) (s : State) : DeferredOutcome :=
  fe.runDeferredSemantic3 (semantic3Outcome fe s).fdecl
    ((gaggedGlobal s.global).emit (semantic3Outcome fe s).diagnostics)

/-- The number of diagnostics emitted between `startGagging` and `endGagging`. -/
def diagnosticsRecorded (fe : Frontend) (s : State) : Nat :=
  (semantic3Outcome fe s).diagnostics +
    (if (semantic3Outcome fe s).result then (deferredOutcome fe s).diagnostics else 0)

/-- The declaration as the resolution attempt leaves it. -/
def resolvedDecl (fe : Frontend) (s : State) : FuncDeclaration :=
  if (semantic3Outcome fe s).result then (deferredOutcome fe s).fdecl
  else (semantic3Outcome fe s).fdecl

/-- The state in which `semanticAnalysis` returns. -/
def stateAfterAnalysis (fe : Frontend) (s : State) : State :=
  { fdecl := resolvedDecl fe s,
    global := { s.global with gaggedForInlining := false },
    semantic3Calls := s.semantic3Calls + 1 }

/-- The verdicts of two calls of `defineAsExternallyAvailable` in a row, the
second on the state the first one leaves, with nothing done in between. -/
def verdictsOfTwoCalls (fe : Frontend) (s : State) : Option (Bool × Bool) :=
  match defineAsExternallyAvailable fe s with
  | none => none
  | some (b1, s1) =>
    match defineAsExternallyAvailable fe s1 with
    | none => none
    | some (b2, _) => some (b1, b2)

/-! ## Concrete declarations and frontends -/

/-- A body of 10 statements: the root, six statements directly below it, of which
one holds two and another one more, with an expression and a declaration in
between. -/
def body10 : Statement :=
  .mk [.statement (.mk []), .expression,
       .statement (.mk [.statement (.mk []), .statement (.mk [])]),
       .statement (.mk []), .declaration,
       .statement (.mk [.expression, .statement (.mk [])]),
       .statement (.mk []), .statement (.mk [])]

/-- A body of 11 statements: `body10` below a new root. -/
def body11 : Statement :=
  .mk [.initializer, .statement body10]

/-- A body of 2 statements. -/
def body2 : Statement :=
  .mk [.statement (.mk [])]

/-- A module other than `object`. -/
def appModule : Module := { ident := ⟨"app"⟩ }

/-- A plain function with the given intent and body: not nested, not yet
resolved, a member of a root module, with none of the disqualifying marks. -/
def plainDecl (inlining : PINLINE) (body : Statement) : FuncDeclaration :=
  { neverInline := false, inlining := inlining, isUnitTestDeclaration := false,
    isFuncAliasDeclaration := false, fbody := some body, isInvariantDeclaration := false,
    getModule := appModule, semanticRun := PASS.PASSsemanticdone, isInstantiated := false,
    inNonRoot := false, isNested := false, toParent2IsFuncDeclaration := none,
    hasWeakUDA := false, naked := false }

/-- A function imported from another module, with the given intent and body:
like `plainDecl`, but a member of a non-root module. -/
def importedDeclWith (inlining : PINLINE) (body : Statement) : FuncDeclaration :=
  { plainDecl inlining body with inNonRoot := true }

/-- An imported function with default intent and a body of 2 statements. -/
def importedDecl : FuncDeclaration :=
  importedDeclWith PINLINE.PINLINEdefault body2

/-- An imported function with a body of 2 statements, marked always-inline and
carrying the weak-linkage attribute. -/
def weakDecl : FuncDeclaration :=
  { importedDeclWith PINLINE.PINLINEalways body2 with hasWeakUDA := true }

/-- An imported function with a body of 2 statements whose `neverInline` flag is
set while its intent is `PINLINEalways`. -/
def neverInlineDecl : FuncDeclaration :=
  { importedDeclWith PINLINE.PINLINEalways body2 with neverInline := true }

/-- A global state with no suppression scope open. -/
def quietGlobal : Global :=
  { gag := 0, errors := 0, gaggedErrors := 0, gaggedForInlining := false }

/-- A frontend with the toggle on, in a build that keeps assertions, whose
resolution always succeeds: it moves the declaration to `PASSsemantic3done` and
emits nothing. -/
def resolvingFrontend : Frontend :=
  { LDC_LLVM_VER := 307, NDEBUG := false, willCrossModuleInline := true,
    functionSemantic3 := fun f _ =>
      { result := true, fdecl := { f with semanticRun := PASS.PASSsemantic3done },
        diagnostics := 0 },
    runDeferredSemantic3 := fun f _ => { fdecl := f, diagnostics := 0 } }

/-- A frontend with the toggle on, whose resolution always fails: it emits two
diagnostics, leaves the declaration at `PASSsemantic3` and returns false. -/
def failingFrontend : Frontend :=
  { LDC_LLVM_VER := 307, NDEBUG := false, willCrossModuleInline := true,
    functionSemantic3 := fun f _ =>
      { result := false, fdecl := { f with semanticRun := PASS.PASSsemantic3 },
        diagnostics := 2 },
    runDeferredSemantic3 := fun f _ => { fdecl := f, diagnostics := 0 } }

/-- The frontend `resolvingFrontend` with the toggle off. -/
def disabledFrontend : Frontend :=
  { resolvingFrontend with willCrossModuleInline := false }

/-- The state that holds `fdecl`, with no suppression scope open and no
resolution attempted so far. -/
def initialState (fdecl : FuncDeclaration) : State :=
  { fdecl := fdecl, global := quietGlobal, semantic3Calls := 0 }

/-- A body of a single statement. -/
def body1 : Statement :=
  .mk []

/-- A body of 22 statements: `body11` and `body10` below a new root. -/
def body22 : Statement :=
  .mk [.statement body11, .statement body10]

/-- An imported unit-test declaration with a body of one statement. -/
def unitTestDecl : FuncDeclaration :=
  { importedDeclWith PINLINE.PINLINEdefault body1 with isUnitTestDeclaration := true }

/-- An imported alias-only declaration, marked always-inline. -/
def aliasDecl : FuncDeclaration :=
  { importedDeclWith PINLINE.PINLINEalways body2 with isFuncAliasDeclaration := true }

/-- An imported declaration without a body, with default intent, so that the
heuristic would have to look at the body if the call got that far. -/
def bodylessDecl : FuncDeclaration :=
  { importedDeclWith PINLINE.PINLINEdefault body1 with fbody := none }

/-- Some policy check of `defineAsExternallyAvailable` rejects the declaration:
one of the early `return false` statements of lines 90 to 178 is taken.  The
last alternative is check 10, the statement-count heuristic. -/
def failsPolicyCheck (fe : Frontend) (fdecl : FuncDeclaration) : Prop :=
  fe.LDC_LLVM_VER < 307 ∨ fe.willCrossModuleInline = false ∨ fdecl.neverInline = true ∨
  fdecl.inlining = PINLINE.PINLINEnever ∨ fdecl.isUnitTestDeclaration = true ∨
  fdecl.isFuncAliasDeclaration = true ∨ fdecl.fbody = none ∨
  fdecl.isInvariantDeclaration = true ∨ fdecl.getModule.ident = Id.object ∨
  PASS.PASSsemantic3.toNat ≤ fdecl.semanticRun.toNat ∨
  alreadyOrWillBeDefined fdecl = true ∨ fdecl.hasWeakUDA = true ∨
  (fdecl.inlining ≠ PINLINE.PINLINEalways ∧ ∃ body, fdecl.fbody = some body ∧ 10 < body.count)

/-- The function `defineAsExternallyAvailable` with the branch
`else if (!willCrossModuleInline()) { ...; return false; }` of lines 117 to 120
removed; everything else is as in `defineAsExternallyAvailable`. -/
def defineAsExternallyAvailableWithoutSecondTest (fe : Frontend) (s : State) :
    Option (Bool × State) :=
  let fdecl := s.fdecl
  if fe.LDC_LLVM_VER < 307 then some (false, s)
  else if !fe.willCrossModuleInline then some (false, s)
  else if fdecl.neverInline || fdecl.inlining == PINLINE.PINLINEnever then some (false, s)
  else if fdecl.isUnitTestDeclaration then some (false, s)
  else if fdecl.isFuncAliasDeclaration then some (false, s)
  else if fdecl.fbody.isNone then some (false, s)
  else if fdecl.isInvariantDeclaration then some (false, s)
  else if fdecl.getModule.ident == Id.object then some (false, s)
  else if PASS.PASSsemantic3.toNat ≤ fdecl.semanticRun.toNat then some (false, s)
  else if alreadyOrWillBeDefined fdecl then some (false, s)
  else if fdecl.hasWeakUDA then some (false, s)
  else if fdecl.inlining != PINLINE.PINLINEalways then
    match isInlineCandidate fdecl with
    | none => none
    | some false => some (false, s)
    | some true => semanticAnalysis fe s
  else semanticAnalysis fe s

/-- A frontend with the toggle on, whose resolution succeeds and finds the
function to be naked. -/
def nakedFrontend : Frontend :=
  { LDC_LLVM_VER := 307, NDEBUG := false, willCrossModuleInline := true,
    functionSemantic3 := fun f _ =>
      { result := true,
        fdecl := { f with semanticRun := PASS.PASSsemantic3done, naked := true },
        diagnostics := 0 },
    runDeferredSemantic3 := fun f _ => { fdecl := f, diagnostics := 0 } }

/-- A frontend with the toggle on, whose `functionSemantic3` succeeds silently
and whose deferred pass emits one diagnostic. -/
def deferredDiagnosticFrontend : Frontend :=
  { LDC_LLVM_VER := 307, NDEBUG := false, willCrossModuleInline := true,
    functionSemantic3 := fun f _ =>
      { result := true, fdecl := { f with semanticRun := PASS.PASSsemantic3done },
        diagnostics := 0 },
    runDeferredSemantic3 := fun f _ => { fdecl := f, diagnostics := 1 } }

/-- A state entered inside an open suppression scope, with three diagnostics
already diverted and `gaggedForInlining` already set. -/
def flaggedState (fdecl : FuncDeclaration) : State :=
  { fdecl := fdecl,
    global := { gag := 1, errors := 0, gaggedErrors := 3, gaggedForInlining := true },
    semantic3Calls := 0 }

/-! ## Lemmas on the walker -/

/-- One call of `visit(Statement *)` on a visitor within its threshold. -/
theorem visitStatement_result (v : MoreThanXStatements) (hs : v.stop = false)
    (hc : v.count ≤ v.threshold) (ht : v.threshold < UINT_MAX) :
    WalkResult v v.visitStatement 1 := by
  have hlt : v.count + 1 < 2 ^ 32 := by unfold UINT_MAX at ht; omega
  have hmod : (v.count + 1) % 2 ^ 32 = v.count + 1 := Nat.mod_eq_of_lt hlt
  unfold WalkResult MoreThanXStatements.visitStatement
  simp only [hmod]
  by_cases h : v.count + 1 > v.threshold
  · rw [if_pos h]
    refine ⟨rfl, ?_, ?_, ?_⟩
    · show v.count + 1 = _
      omega
    · show true = _
      simp only [true_eq_decide_iff]; omega
    · show v.visitCalls + 1 = _
      omega
  · rw [if_neg h]
    refine ⟨rfl, ?_, ?_, ?_⟩
    · show v.count + 1 = _
      omega
    · show v.stop = _
      rw [hs]; simp only [false_eq_decide_iff]; omega
    · show v.visitCalls + 1 = _
      omega

/-- Once the visitor has stopped, statements that are not walked change nothing. -/
theorem walkResult_stopped (v v1 : MoreThanXStatements) (c extra : Nat)
    (h : WalkResult v v1 c) (hstop : v1.stop = true) : WalkResult v v1 (c + extra) := by
  obtain ⟨a, b, c1, d⟩ := h
  rw [hstop] at c1
  have c2 : v.threshold < v.count + c := by simpa using c1.symm
  refine ⟨a, ?_, ?_, ?_⟩
  · omega
  · rw [hstop]; simp only [true_eq_decide_iff]; omega
  · omega

/-- Two walks in a row, the first of which does not stop the visitor. -/
theorem walkResult_continue (v v1 v2 : MoreThanXStatements) (c extra : Nat)
    (h : WalkResult v v1 c) (hstop : v1.stop = false) (hc : v.count ≤ v.threshold)
    (h2 : WalkResult v1 v2 extra) : WalkResult v v2 (c + extra) := by
  obtain ⟨a, b, c1, d⟩ := h
  obtain ⟨a2, b2, c2, d2⟩ := h2
  rw [hstop] at c1
  have c3 : ¬ v.threshold < v.count + c := by simpa using c1.symm
  refine ⟨by omega, ?_, ?_, ?_⟩
  · omega
  · rw [c2]; simp only [decide_eq_decide]; omega
  · omega

/-- A visitor that has not stopped is still within its threshold. -/
theorem walkResult_within (v v1 : MoreThanXStatements) (c : Nat)
    (h : WalkResult v v1 c) (hstop : v1.stop = false) :
    v1.count ≤ v1.threshold ∧ v1.threshold = v.threshold := by
  obtain ⟨a, b, c1, d⟩ := h
  rw [hstop] at c1
  have c3 : ¬ v.threshold < v.count + c := by simpa using c1.symm
  omega

/-- Visiting a node that is not a statement changes nothing. -/
theorem walkResult_refl (v : MoreThanXStatements) (hs : v.stop = false)
    (hc : v.count ≤ v.threshold) : WalkResult v v 0 := by
  refine ⟨rfl, by omega, ?_, by omega⟩
  rw [hs]; simp only [false_eq_decide_iff]; omega

/-! The walk from a visitor within its threshold, by recursion on the tree. -/

mutual
theorem walk_visitStatement_result : ∀ (s : Statement) (v : MoreThanXStatements),
    v.stop = false → v.count ≤ v.threshold → v.threshold < UINT_MAX →
    WalkResult v (RecursiveWalker.visitStatement v s) s.count
  | .mk children, v, hs, hc, ht => by
    have h1 := visitStatement_result v hs hc ht
    unfold RecursiveWalker.visitStatement Statement.count
    by_cases hstop : v.visitStatement.stop = true
    · simp only [hstop, if_true]
      exact walkResult_stopped v _ 1 _ h1 hstop
    · have hstop1 : v.visitStatement.stop = false := by simpa using hstop
      simp only [hstop1, Bool.false_eq_true, if_false]
      obtain ⟨hc1, ht1⟩ := walkResult_within v _ 1 h1 hstop1
      exact walkResult_continue v _ _ 1 _ h1 hstop1 hc
        (walk_recurseAll_result children v.visitStatement hstop1 hc1 (by omega))
theorem walk_recurse_result : ∀ (n : Node) (v : MoreThanXStatements),
    v.stop = false → v.count ≤ v.threshold → v.threshold < UINT_MAX →
    WalkResult v (RecursiveWalker.recurse v n) n.count
  | .statement s, v, hs, hc, ht => by
    unfold RecursiveWalker.recurse Node.count
    exact walk_visitStatement_result s v hs hc ht
  | .expression, v, hs, hc, _ => by
    unfold RecursiveWalker.recurse Node.count MoreThanXStatements.visitOther
    exact walkResult_refl v hs hc
  | .declaration, v, hs, hc, _ => by
    unfold RecursiveWalker.recurse Node.count MoreThanXStatements.visitOther
    exact walkResult_refl v hs hc
  | .initializer, v, hs, hc, _ => by
    unfold RecursiveWalker.recurse Node.count MoreThanXStatements.visitOther
    exact walkResult_refl v hs hc
  | .dsymbol, v, hs, hc, _ => by
    unfold RecursiveWalker.recurse Node.count MoreThanXStatements.visitOther
    exact walkResult_refl v hs hc
theorem walk_recurseAll_result : ∀ (ns : List Node) (v : MoreThanXStatements),
    v.stop = false → v.count ≤ v.threshold → v.threshold < UINT_MAX →
    WalkResult v (RecursiveWalker.recurseAll v ns) (Node.countAll ns)
  | [], v, hs, hc, _ => by
    unfold RecursiveWalker.recurseAll Node.countAll
    exact walkResult_refl v hs hc
  | n :: rest, v, hs, hc, ht => by
    have h1 := walk_recurse_result n v hs hc ht
    unfold RecursiveWalker.recurseAll Node.countAll
    by_cases hstop : (RecursiveWalker.recurse v n).stop = true
    · simp only [hstop, if_true]
      exact walkResult_stopped v _ _ _ h1 hstop
    · have hstop1 : (RecursiveWalker.recurse v n).stop = false := by simpa using hstop
      simp only [hstop1, Bool.false_eq_true, if_false]
      obtain ⟨hc1, ht1⟩ := walkResult_within v _ _ h1 hstop1
      exact walkResult_continue v _ _ _ _ h1 hstop1 hc
        (walk_recurseAll_result rest (RecursiveWalker.recurse v n) hstop1 hc1 (by omega))
end

/-! ## Lemmas on the gate -/

/-- A declaration that passes checks 1 to 9 has a body. -/
theorem fbody_of_passesChecks1to9 (fe : Frontend) (fdecl : FuncDeclaration)
    (h : passesChecks1to9 fe fdecl = true) : ∃ body, fdecl.fbody = some body := by
  unfold passesChecks1to9 at h
  simp only [Bool.and_eq_true] at h
  exact Option.isSome_iff_exists.mp h.1.1.1.1.1.2

/-- When no policy check rejects the declaration, the call is the speculative step. -/
theorem defineAsExternallyAvailable_of_reaches (fe : Frontend) (s : State)
    (h : reachesSemanticAnalysis fe s.fdecl = true) :
    defineAsExternallyAvailable fe s = semanticAnalysis fe s := by
  unfold reachesSemanticAnalysis passesChecks1to9 at h
  simp only [Bool.and_eq_true, Bool.or_eq_true, decide_eq_true_eq, Bool.not_eq_true',
    bne_iff_ne, ne_eq, beq_iff_eq] at h
  obtain ⟨⟨⟨⟨⟨⟨⟨⟨⟨⟨⟨⟨h0, h1⟩, h2⟩, h3⟩, h4⟩, h5⟩, h6⟩, h7⟩, h8⟩, h9⟩, h10⟩, h11⟩, h12⟩ := h
  unfold defineAsExternallyAvailable
  have h0' : ¬ fe.LDC_LLVM_VER < 307 := by omega
  have h9' : ¬ PASS.PASSsemantic3.toNat ≤ s.fdecl.semanticRun.toNat := by omega
  have h6' : s.fdecl.fbody.isNone = false := by
    cases hb : s.fdecl.fbody <;> simp_all
  simp only [h0', h1, h2, h3, h4, h5, h6', h7, h8, h9', h10, h11, if_false, Bool.not_true,
    Bool.false_or, beq_iff_eq, bne_iff_ne, ne_eq, Bool.and_false, Bool.false_eq_true,
    not_false_eq_true, not_true_eq_false, if_true, ite_not]
  rcases h12 with h12 | h12
  · simp [h12]
  · by_cases ha : s.fdecl.inlining = PINLINE.PINLINEalways
    · simp [ha]
    · simp [ha, h12]

/-- With a body present `isInlineCandidate` returns. -/
theorem isInlineCandidate_isSome (fdecl : FuncDeclaration) (body : Statement)
    (h : fdecl.fbody = some body) : ∃ b, isInlineCandidate fdecl = some b := by
  unfold isInlineCandidate
  simp only [h]
  exact ⟨_, rfl⟩

/-- When some policy check rejects the declaration, the call returns false and
leaves the state as it was. -/
theorem defineAsExternallyAvailable_of_not_reaches (fe : Frontend) (s : State)
    (h : reachesSemanticAnalysis fe s.fdecl = false) :
    defineAsExternallyAvailable fe s = some (false, s) := by
  unfold defineAsExternallyAvailable
  generalize semanticAnalysis fe s = r
  simp only []
  by_cases h0 : fe.LDC_LLVM_VER < 307
  · rw [if_pos h0]
  rw [if_neg h0]
  by_cases h1 : (!fe.willCrossModuleInline) = true
  · rw [if_pos h1]
  rw [if_neg h1]
  by_cases h2 : (s.fdecl.neverInline || s.fdecl.inlining == PINLINE.PINLINEnever) = true
  · rw [if_pos h2]
  rw [if_neg h2]
  by_cases h3 : (!(s.fdecl.inlining == PINLINE.PINLINEalways) && !fe.willCrossModuleInline) = true
  · rw [if_pos h3]
  rw [if_neg h3]
  by_cases h4 : s.fdecl.isUnitTestDeclaration = true
  · rw [if_pos h4]
  rw [if_neg h4]
  by_cases h5 : s.fdecl.isFuncAliasDeclaration = true
  · rw [if_pos h5]
  rw [if_neg h5]
  by_cases h6 : s.fdecl.fbody.isNone = true
  · rw [if_pos h6]
  rw [if_neg h6]
  by_cases h7 : s.fdecl.isInvariantDeclaration = true
  · rw [if_pos h7]
  rw [if_neg h7]
  by_cases h8 : (s.fdecl.getModule.ident == Id.object) = true
  · rw [if_pos h8]
  rw [if_neg h8]
  by_cases h9 : PASS.PASSsemantic3.toNat ≤ s.fdecl.semanticRun.toNat
  · rw [if_pos h9]
  rw [if_neg h9]
  by_cases h10 : alreadyOrWillBeDefined s.fdecl = true
  · rw [if_pos h10]
  rw [if_neg h10]
  by_cases h11 : s.fdecl.hasWeakUDA = true
  · rw [if_pos h11]
  rw [if_neg h11]
  have hp : passesChecks1to9 fe s.fdecl = true := by
    unfold passesChecks1to9
    simp only [Bool.and_eq_true, decide_eq_true_eq, Bool.not_eq_true', bne_iff_ne, ne_eq]
    simp only [Bool.not_eq_true', Bool.not_eq_true, Bool.or_eq_true, not_or, beq_iff_eq,
      Bool.not_eq_false, Option.isNone_iff_eq_none] at h1 h2 h4 h5 h6 h7 h8 h10 h11
    refine ⟨⟨⟨⟨⟨⟨⟨⟨⟨⟨⟨?_, h1⟩, h2.1⟩, h2.2⟩, h4⟩, h5⟩, ?_⟩, h7⟩, h8⟩, ?_⟩, h10⟩, h11⟩
    · omega
    · cases hb : s.fdecl.fbody
      · exact absurd hb h6
      · rfl
    · omega
  unfold reachesSemanticAnalysis at h
  rw [hp, Bool.true_and] at h
  simp only [Bool.or_eq_false_iff, beq_eq_false_iff_ne, ne_eq] at h
  obtain ⟨body, hb⟩ := fbody_of_passesChecks1to9 fe s.fdecl hp
  obtain ⟨b, hc⟩ := isInlineCandidate_isSome s.fdecl body hb
  have hne : (s.fdecl.inlining != PINLINE.PINLINEalways) = true := by
    simp only [bne_iff_ne, ne_eq]; exact h.1
  rw [if_pos hne, hc]
  cases b
  · rfl
  · exact absurd hc h.2

/-- What passing checks 1 to 9 says of the frontend and the declaration. -/
theorem passesChecks1to9_elim (fe : Frontend) (fdecl : FuncDeclaration)
    (h : passesChecks1to9 fe fdecl = true) :
    307 ≤ fe.LDC_LLVM_VER ∧ fe.willCrossModuleInline = true ∧ fdecl.neverInline = false ∧
    fdecl.inlining ≠ PINLINE.PINLINEnever ∧ fdecl.isUnitTestDeclaration = false ∧
    fdecl.isFuncAliasDeclaration = false ∧ fdecl.isInvariantDeclaration = false ∧
    fdecl.getModule.ident ≠ Id.object ∧
    fdecl.semanticRun.toNat < PASS.PASSsemantic3.toNat ∧
    alreadyOrWillBeDefined fdecl = false ∧ fdecl.hasWeakUDA = false := by
  unfold passesChecks1to9 at h
  simp only [Bool.and_eq_true, decide_eq_true_eq, Bool.not_eq_true', bne_iff_ne, ne_eq] at h
  obtain ⟨⟨⟨⟨⟨⟨⟨⟨⟨⟨⟨h0, h1⟩, h2⟩, h3⟩, h4⟩, h5⟩, _⟩, h7⟩, h8⟩, h9⟩, h10⟩, h11⟩ := h
  exact ⟨h0, h1, h2, h3, h4, h5, h7, h8, h9, h10, h11⟩

/-- Reaching the speculative step includes passing checks 1 to 9. -/
theorem passesChecks1to9_of_reaches (fe : Frontend) (fdecl : FuncDeclaration)
    (h : reachesSemanticAnalysis fe fdecl = true) : passesChecks1to9 fe fdecl = true := by
  unfold reachesSemanticAnalysis at h
  simp only [Bool.and_eq_true] at h
  exact h.1

/-- Any one of the disqualifying conditions keeps the declaration from the
speculative step. -/
theorem not_reaches_of (fe : Frontend) (fdecl : FuncDeclaration)
    (h : fe.LDC_LLVM_VER < 307 ∨ fe.willCrossModuleInline = false ∨ fdecl.neverInline = true ∨
      fdecl.inlining = PINLINE.PINLINEnever ∨ fdecl.isUnitTestDeclaration = true ∨
      fdecl.isFuncAliasDeclaration = true ∨ fdecl.isInvariantDeclaration = true ∨
      fdecl.getModule.ident = Id.object ∨
      PASS.PASSsemantic3.toNat ≤ fdecl.semanticRun.toNat ∨
      alreadyOrWillBeDefined fdecl = true ∨ fdecl.hasWeakUDA = true) :
    reachesSemanticAnalysis fe fdecl = false := by
  rw [Bool.eq_false_iff]
  intro hr
  obtain ⟨h0, h1, h2, h3, h4, h5, h7, h8, h9, h10, h11⟩ :=
    passesChecks1to9_elim fe fdecl (passesChecks1to9_of_reaches fe fdecl hr)
  rcases h with h | h | h | h | h | h | h | h | h | h | h
  · omega
  · rw [h] at h1; exact Bool.noConfusion h1
  · rw [h] at h2; exact Bool.noConfusion h2
  · exact h3 h
  · rw [h] at h4; exact Bool.noConfusion h4
  · rw [h] at h5; exact Bool.noConfusion h5
  · rw [h] at h7; exact Bool.noConfusion h7
  · exact h8 h
  · omega
  · rw [h] at h10; exact Bool.noConfusion h10
  · rw [h] at h11; exact Bool.noConfusion h11

/-! ## Lemmas on the speculative step -/

/-- While a scope is open every diagnostic goes to the diverted counter. -/
theorem emit_gagged (g : Global) (n : Nat) (h : g.gag ≠ 0) :
    g.emit n = { g with gaggedErrors := g.gaggedErrors + n } := by
  induction n with
  | zero => rfl
  | succ k ih =>
    show (g.emit k).error = _
    rw [ih]
    unfold Global.error
    simp only [h, if_false]
    show _ = ({ g with gaggedErrors := g.gaggedErrors + (k + 1) } : Global)
    simp only [Nat.add_assoc]

/-- Two runs of diagnostics while a scope is open. -/
theorem emit_emit_gagged (g : Global) (n m : Nat) (h : g.gag ≠ 0) :
    (g.emit n).emit m = { g with gaggedErrors := g.gaggedErrors + (n + m) } := by
  rw [emit_gagged g n h, emit_gagged { g with gaggedErrors := g.gaggedErrors + n } m h]
  show ({ g with gaggedErrors := g.gaggedErrors + n + m } : Global) = _
  rw [Nat.add_assoc]

/-- The speculative step in closed form: its verdict and the state it leaves. -/
theorem semanticAnalysis_eq (fe : Frontend) (s : State) :
    semanticAnalysis fe s =
      if diagnosticsRecorded fe s ≠ 0 ∨ (semantic3Outcome fe s).result = false then
        some (false, stateAfterAnalysis fe s)
      else if fe.NDEBUG = false ∧
          ¬ (PASS.PASSsemantic3done.toNat ≤ (resolvedDecl fe s).semanticRun.toNat) then none
      else if (resolvedDecl fe s).naked then some (false, stateAfterAnalysis fe s)
      else some (true, stateAfterAnalysis fe s) := by
  have hg : (gaggedGlobal s.global).gag ≠ 0 := by
    show s.global.gag + 1 ≠ 0
    omega
  cases hr : (semantic3Outcome fe s).result
  · have hd : resolvedDecl fe s = (semantic3Outcome fe s).fdecl := by
      unfold resolvedDecl; rw [hr]; rfl
    have hs : stateAfterAnalysis fe s =
        { fdecl := (semantic3Outcome fe s).fdecl,
          global := { s.global with gaggedForInlining := false },
          semantic3Calls := s.semantic3Calls + 1 } := by
      unfold stateAfterAnalysis; rw [hd]
    rw [hs]
    have hm := emit_gagged (gaggedGlobal s.global) (semantic3Outcome fe s).diagnostics hg
    unfold semanticAnalysis
    unfold semantic3Outcome at hr hm ⊢
    unfold gaggedGlobal at hr hm ⊢
    simp only [hr, hm]
    simp [Global.startGagging, Global.endGagging]
  · have hd : resolvedDecl fe s = (deferredOutcome fe s).fdecl := by
      unfold resolvedDecl; rw [hr]; rfl
    have hn : diagnosticsRecorded fe s =
        (semantic3Outcome fe s).diagnostics + (deferredOutcome fe s).diagnostics := by
      unfold diagnosticsRecorded; rw [hr]; rfl
    have hs : stateAfterAnalysis fe s =
        { fdecl := (deferredOutcome fe s).fdecl,
          global := { s.global with gaggedForInlining := false },
          semantic3Calls := s.semantic3Calls + 1 } := by
      unfold stateAfterAnalysis; rw [hd]
    rw [hs, hd, hn]
    have hm := emit_emit_gagged (gaggedGlobal s.global) (semantic3Outcome fe s).diagnostics
      (deferredOutcome fe s).diagnostics hg
    unfold semanticAnalysis
    unfold deferredOutcome at hm ⊢
    unfold semantic3Outcome at hr hm ⊢
    unfold gaggedGlobal at hr hm ⊢
    simp only [hr, hm]
    simp [Global.startGagging, Global.endGagging]

/-! ## Lemmas on the nesting chain -/

/-- The loop of `alreadyOrWillBeDefined` returns false exactly when the walked
chain holds a non-instantiated member of a non-root unit. -/
theorem alreadyOrWillBeDefined_eq_false_iff : ∀ f : FuncDeclaration,
    alreadyOrWillBeDefined f = false ↔ ∃ d ∈ walkedChain f, importedLink d = true
  | ⟨a1, a2, a3, a4, a5, a6, a7, a8, inst, nonRoot, nested, parent, a13, a14⟩ => by
    unfold alreadyOrWillBeDefined walkedChain
    simp only []
    by_cases h : (!inst && nonRoot) = true
    · simp only [h, if_true, true_iff]
      exact ⟨_, List.mem_cons_self _ _, h⟩
    · simp only [h, if_false]
      cases nested
      · simp only [Bool.false_eq_true, if_false, List.mem_singleton, exists_eq_left]
        simp only [importedLink]
        simp [h]
      · simp only [if_true]
        cases parent with
        | none =>
          simp only [List.mem_singleton, exists_eq_left]
          simp only [importedLink]
          simp [h]
        | some f1 =>
          simp only [List.mem_cons, exists_eq_or_imp, Bool.false_eq_true, if_false]
          rw [alreadyOrWillBeDefined_eq_false_iff f1]
          simp only [importedLink]
          simp [h]

/-- The count a walk from a fresh visitor ends with. -/
theorem walk_count_new (t : Nat) (body : Statement) (ht : t < UINT_MAX) :
    (RecursiveWalker.visitStatement (MoreThanXStatements.new t) body).count
      = min body.count (t + 1) := by
  have h := walk_visitStatement_result body (MoreThanXStatements.new t) rfl (Nat.zero_le _) ht
  obtain ⟨_, b, _, _⟩ := h
  rw [b]
  show min (0 + body.count) (t + 1) = _
  rw [Nat.zero_add]

/-- The value `isInlineCandidate` returns for a declaration with a body. -/
theorem isInlineCandidate_eq (fdecl : FuncDeclaration) (body : Statement)
    (hbody : fdecl.fbody = some body) :
    isInlineCandidate fdecl = some (decide (body.count ≤ 10)) := by
  unfold isInlineCandidate
  simp only [hbody]
  rw [walk_count_new 10 body (by decide)]
  congr 1
  simp only [decide_eq_decide]
  omega

/-! ## The statement-count heuristic -/

/-- C1: for a function body with `c` statements (the number a complete
pre-order walk visits), `isInlineCandidate` returns, and returns true exactly when
`c ≤ 10`; more generally, for every threshold `t` below the unsigned maximum, the
count the walk under `MoreThanXStatements(t)` ends with is at most `t` exactly
when `c ≤ t`. -/
theorem isInlineCandidate_iff_count_le (fdecl : FuncDeclaration) (body : Statement) (t : Nat)
    (hbody : fdecl.fbody = some body) (ht : t < UINT_MAX) :
    isInlineCandidate fdecl = some (decide (body.count ≤ 10)) ∧
    ((RecursiveWalker.visitStatement (MoreThanXStatements.new t) body).count ≤ t
      ↔ body.count ≤ t) := by
  refine ⟨isInlineCandidate_eq fdecl body hbody, ?_⟩
  rw [walk_count_new t body ht]
  omega

/-- C1, witness: a body of exactly 10 statements is accepted and a body of 11
statements is rejected. -/
theorem isInlineCandidate_iff_count_le_witness :
    (isInlineCandidate (plainDecl PINLINE.PINLINEdefault body10) = some true ∧
      isInlineCandidate (plainDecl PINLINE.PINLINEdefault body11) = some false) ∧
    body10.count = 10 ∧ body11.count = 11 :=
  ⟨⟨(isInlineCandidate_iff_count_le (plainDecl PINLINE.PINLINEdefault body10) body10 10 rfl
        (by decide)).1,
    (isInlineCandidate_iff_count_le (plainDecl PINLINE.PINLINEdefault body11) body11 10 rfl
        (by decide)).1⟩, by decide, by decide⟩

/-! ## The definition-locality check -/

/-- C3, counterexample: for an imported function (not an instantiation, member of
a non-root module, not nested) the chain holds such a link, yet
`alreadyOrWillBeDefined` returns false, not true. -/
theorem alreadyOrWillBeDefined_imported_is_false :
    (∃ d ∈ walkedChain importedDecl, d.isInstantiated = false ∧ d.inNonRoot = true) ∧
    alreadyOrWillBeDefined importedDecl = false :=
  ⟨⟨importedDecl, List.Mem.head _, by decide, by decide⟩, by decide⟩

/-- C3, amended: `alreadyOrWillBeDefined` is total, returns false exactly when
some declaration on the walked chain is not an instantiation and is in a non-root
unit, and returns true exactly when the walk meets no such link. -/
theorem alreadyOrWillBeDefined_iff (f : FuncDeclaration) :
    (alreadyOrWillBeDefined f = false ↔
      ∃ d ∈ walkedChain f, d.isInstantiated = false ∧ d.inNonRoot = true) ∧
    (alreadyOrWillBeDefined f = true ↔
      ∀ d ∈ walkedChain f, ¬ (d.isInstantiated = false ∧ d.inNonRoot = true)) := by
  have key := alreadyOrWillBeDefined_eq_false_iff f
  simp only [importedLink, Bool.and_eq_true, Bool.not_eq_true'] at key
  refine ⟨key, ?_⟩
  rw [← Bool.not_eq_false, key]
  simp only [not_exists, not_and]

/-! ## The eligibility gate -/

/-- C2, counterexample: an imported function (member of a non-root module, not
an instantiation) is not rejected; with the toggle on and a frontend whose
resolution succeeds `defineAsExternallyAvailable` returns true for it, after one
call of `functionSemantic3`. -/
theorem imported_decl_is_resolved_and_accepted :
    importedDecl.inNonRoot = true ∧ importedDecl.isInstantiated = false ∧
    defineAsExternallyAvailable resolvingFrontend (initialState importedDecl)
      = some (true, stateAfterAnalysis resolvingFrontend (initialState importedDecl)) ∧
    (stateAfterAnalysis resolvingFrontend (initialState importedDecl)).semantic3Calls = 1 :=
  ⟨rfl, rfl, rfl, rfl⟩

/-- C2, amended: for every declaration none of whose walked nesting-chain links is
a non-instantiated member of a non-root unit (so that `alreadyOrWillBeDefined` is
true), whatever its other attributes, the toggle and the frontend,
`defineAsExternallyAvailable` returns false and leaves the state, the count of
`functionSemantic3` calls included, as it was. -/
theorem defineAsExternallyAvailable_false_of_no_imported_link (fe : Frontend) (s : State)
    (h : ∀ d ∈ walkedChain s.fdecl, d.isInstantiated = true ∨ d.inNonRoot = false) :
    alreadyOrWillBeDefined s.fdecl = true ∧
    defineAsExternallyAvailable fe s = some (false, s) := by
  have hdef : alreadyOrWillBeDefined s.fdecl = true := by
    rw [← Bool.not_eq_false, alreadyOrWillBeDefined_eq_false_iff]
    rintro ⟨d, hd, hl⟩
    simp only [importedLink, Bool.and_eq_true, Bool.not_eq_true'] at hl
    rcases h d hd with h1 | h1
    · rw [h1] at hl; exact Bool.noConfusion hl.1
    · rw [h1] at hl; exact Bool.noConfusion hl.2
  refine ⟨hdef, defineAsExternallyAvailable_of_not_reaches fe s (not_reaches_of fe s.fdecl ?_)⟩
  simp only [hdef, true_or, or_true]

/-- C2, amended, witness: a plain function of a root module with a body of 2
statements is rejected without resolution, although resolution would succeed. -/
theorem defineAsExternallyAvailable_false_of_no_imported_link_witness :
    (∀ d ∈ walkedChain (initialState (plainDecl PINLINE.PINLINEdefault body2)).fdecl,
      d.isInstantiated = true ∨ d.inNonRoot = false) ∧
    alreadyOrWillBeDefined (initialState (plainDecl PINLINE.PINLINEdefault body2)).fdecl = true ∧
    defineAsExternallyAvailable resolvingFrontend
        (initialState (plainDecl PINLINE.PINLINEdefault body2))
      = some (false, initialState (plainDecl PINLINE.PINLINEdefault body2)) :=
  have hw : ∀ d ∈ walkedChain (initialState (plainDecl PINLINE.PINLINEdefault body2)).fdecl,
      d.isInstantiated = true ∨ d.inNonRoot = false := by
    intro d hd
    have hd1 : d = plainDecl PINLINE.PINLINEdefault body2 := List.mem_singleton.mp hd
    rw [hd1]
    exact Or.inr rfl
  ⟨hw, defineAsExternallyAvailable_false_of_no_imported_link resolvingFrontend
    (initialState (plainDecl PINLINE.PINLINEdefault body2)) hw⟩

/-- C4: for every declaration that reaches the speculative step, if resolution
fails or at least one diagnostic is emitted between `startGagging` and
`endGagging`, `defineAsExternallyAvailable` returns false, and in the state it
leaves the user-visible error count, the diverted counter and the suppression
depth are what they were before the call. -/
theorem defineAsExternallyAvailable_false_and_silent_of_diagnostics (fe : Frontend) (s : State)
    (hreach : reachesSemanticAnalysis fe s.fdecl = true)
    (hdiag : (semantic3Outcome fe s).result = false ∨ 0 < diagnosticsRecorded fe s) :
    ∃ s1, defineAsExternallyAvailable fe s = some (false, s1) ∧
      s1.global.errors = s.global.errors ∧
      s1.global.gaggedErrors = s.global.gaggedErrors ∧
      s1.global.gag = s.global.gag ∧
      s1.semantic3Calls = s.semantic3Calls + 1 := by
  refine ⟨stateAfterAnalysis fe s, ?_, rfl, rfl, rfl, rfl⟩
  rw [defineAsExternallyAvailable_of_reaches fe s hreach, semanticAnalysis_eq]
  have hc : diagnosticsRecorded fe s ≠ 0 ∨ (semantic3Outcome fe s).result = false := by
    rcases hdiag with h | h
    · exact Or.inr h
    · exact Or.inl (by omega)
  rw [if_pos hc]

/-- C4, witness: the imported function under a frontend whose resolution emits
two diagnostics and fails. -/
theorem defineAsExternallyAvailable_false_and_silent_of_diagnostics_witness :
    reachesSemanticAnalysis failingFrontend (initialState importedDecl).fdecl = true ∧
    diagnosticsRecorded failingFrontend (initialState importedDecl) = 2 ∧
    ∃ s1, defineAsExternallyAvailable failingFrontend (initialState importedDecl)
        = some (false, s1) ∧
      s1.global.errors = (initialState importedDecl).global.errors ∧
      s1.global.gaggedErrors = (initialState importedDecl).global.gaggedErrors ∧
      s1.global.gag = (initialState importedDecl).global.gag ∧
      s1.semantic3Calls = (initialState importedDecl).semantic3Calls + 1 :=
  ⟨by decide, by decide,
    defineAsExternallyAvailable_false_and_silent_of_diagnostics failingFrontend
      (initialState importedDecl) (by decide) (Or.inl (by decide))⟩

/-- A verdict of true comes from the speculative step, past its `assert` when
the build keeps it. -/
theorem defineAsExternallyAvailable_true_elim (fe : Frontend) (s s1 : State)
    (h : defineAsExternallyAvailable fe s = some (true, s1)) :
    reachesSemanticAnalysis fe s.fdecl = true ∧ s1 = stateAfterAnalysis fe s ∧
    (fe.NDEBUG = false →
      PASS.PASSsemantic3done.toNat ≤ (resolvedDecl fe s).semanticRun.toNat) := by
  cases hr : reachesSemanticAnalysis fe s.fdecl
  · rw [defineAsExternallyAvailable_of_not_reaches fe s hr] at h
    simp only [Option.some.injEq, Prod.mk.injEq, Bool.false_eq_true, false_and] at h
  · rw [defineAsExternallyAvailable_of_reaches fe s hr, semanticAnalysis_eq] at h
    split_ifs at h with h1 h2 h3
    · simp only [Option.some.injEq, Prod.mk.injEq, Bool.false_eq_true, false_and] at h
    · simp only [Option.some.injEq, Prod.mk.injEq, Bool.false_eq_true, false_and] at h
    · simp only [Option.some.injEq, Prod.mk.injEq, true_and] at h
      refine ⟨rfl, h.symm, ?_⟩
      intro hn
      by_contra hc
      exact h2 ⟨hn, hc⟩

/-- Rule 7: a declaration whose stage is at or past `PASSsemantic3` is rejected,
with the state unchanged. -/
theorem defineAsExternallyAvailable_false_of_stage (fe : Frontend) (s : State)
    (h : PASS.PASSsemantic3.toNat ≤ s.fdecl.semanticRun.toNat) :
    defineAsExternallyAvailable fe s = some (false, s) := by
  refine defineAsExternallyAvailable_of_not_reaches fe s (not_reaches_of fe s.fdecl ?_)
  simp only [h, true_or, or_true]

/-- In a build that keeps the `assert`, after a verdict of true the declaration
is resolved and the next call rejects it. -/
theorem defineAsExternallyAvailable_after_true (fe : Frontend) (s s1 : State)
    (h : defineAsExternallyAvailable fe s = some (true, s1)) (hn : fe.NDEBUG = false) :
    PASS.PASSsemantic3done.toNat ≤ s1.fdecl.semanticRun.toNat ∧
    defineAsExternallyAvailable fe s1 = some (false, s1) := by
  obtain ⟨_, hs1, hstage⟩ := defineAsExternallyAvailable_true_elim fe s s1 h
  have hst : PASS.PASSsemantic3done.toNat ≤ s1.fdecl.semanticRun.toNat := by
    rw [hs1]; exact hstage hn
  have h56 : PASS.PASSsemantic3.toNat ≤ PASS.PASSsemantic3done.toNat := by decide
  exact ⟨hst, defineAsExternallyAvailable_false_of_stage fe s1 (Nat.le_trans h56 hst)⟩

/-- The state in which the speculative step returns, whatever its verdict. -/
theorem semanticAnalysis_state (fe : Frontend) (s s1 : State) (b : Bool)
    (h : semanticAnalysis fe s = some (b, s1)) : s1 = stateAfterAnalysis fe s := by
  rw [semanticAnalysis_eq] at h
  split_ifs at h with h1 h2 h3
  · simp only [Option.some.injEq, Prod.mk.injEq] at h; exact h.2.symm
  · simp only [Option.some.injEq, Prod.mk.injEq] at h; exact h.2.symm
  · simp only [Option.some.injEq, Prod.mk.injEq] at h; exact h.2.symm

/-- C6, counterexample: two calls in a row on the imported function, under a
frontend whose resolution succeeds, give the verdicts true and then false. -/
theorem verdictsOfTwoCalls_differ :
    verdictsOfTwoCalls resolvingFrontend (initialState importedDecl) = some (true, false) := by
  decide

/-- C6, amended: of two calls in a row with nothing done in between, the second
returns false whenever the first returned true in a build that keeps the
`assert` of line 204 (the stage is then at `PASSsemantic3done` or later and
rule 7 applies), whenever the first returned without attempting resolution (the
state is unchanged), and whenever the first left the stage at or past
`PASSsemantic3`; so for a declaration the first call accepts and resolves the
verdicts are true, then false. -/
theorem verdictsOfTwoCalls_second_false (fe : Frontend) (s s1 : State) (b1 : Bool)
    (h1 : defineAsExternallyAvailable fe s = some (b1, s1))
    (h : (b1 = true ∧ fe.NDEBUG = false) ∨ s1.semantic3Calls = s.semantic3Calls ∨
      PASS.PASSsemantic3.toNat ≤ s1.fdecl.semanticRun.toNat) :
    defineAsExternallyAvailable fe s1 = some (false, s1) ∧
    verdictsOfTwoCalls fe s = some (b1, false) := by
  have h2 : defineAsExternallyAvailable fe s1 = some (false, s1) := by
    rcases h with h | h | h
    · obtain ⟨hb, hn⟩ := h
      subst hb
      exact (defineAsExternallyAvailable_after_true fe s s1 h1 hn).2
    · cases hr : reachesSemanticAnalysis fe s.fdecl
      · have h3 := defineAsExternallyAvailable_of_not_reaches fe s hr
        rw [h3] at h1
        simp only [Option.some.injEq, Prod.mk.injEq] at h1
        rw [← h1.2]
        exact h3
      · rw [defineAsExternallyAvailable_of_reaches fe s hr] at h1
        have h3 := semanticAnalysis_state fe s s1 b1 h1
        rw [h3] at h
        have h4 : s.semantic3Calls + 1 = s.semantic3Calls := h
        omega
    · exact defineAsExternallyAvailable_false_of_stage fe s1 h
  refine ⟨h2, ?_⟩
  unfold verdictsOfTwoCalls
  rw [h1]
  simp only [h2]

/-- C6, amended, witness: first verdict true, second false, on the imported
function. -/
theorem verdictsOfTwoCalls_second_false_witness :
    defineAsExternallyAvailable resolvingFrontend (initialState importedDecl)
      = some (true, stateAfterAnalysis resolvingFrontend (initialState importedDecl)) ∧
    defineAsExternallyAvailable resolvingFrontend
        (stateAfterAnalysis resolvingFrontend (initialState importedDecl))
      = some (false, stateAfterAnalysis resolvingFrontend (initialState importedDecl)) ∧
    verdictsOfTwoCalls resolvingFrontend (initialState importedDecl) = some (true, false) :=
  ⟨rfl, verdictsOfTwoCalls_second_false resolvingFrontend (initialState importedDecl) _ true
    rfl (Or.inl ⟨rfl, rfl⟩)⟩

/-- C7: for every declaration that carries the weak-linkage attribute, whatever
its body and its inlining intent, `defineAsExternallyAvailable` returns false and
leaves the state, the count of `functionSemantic3` calls included, as it was. -/
theorem defineAsExternallyAvailable_false_of_weak (fe : Frontend) (s : State)
    (h : s.fdecl.hasWeakUDA = true) :
    defineAsExternallyAvailable fe s = some (false, s) := by
  refine defineAsExternallyAvailable_of_not_reaches fe s (not_reaches_of fe s.fdecl ?_)
  simp only [h, or_true]

/-- C7, witness: a weak, always-inline imported function of 2 statements. -/
theorem defineAsExternallyAvailable_false_of_weak_witness :
    (initialState weakDecl).fdecl.hasWeakUDA = true ∧
    defineAsExternallyAvailable resolvingFrontend (initialState weakDecl)
      = some (false, initialState weakDecl) :=
  ⟨rfl, defineAsExternallyAvailable_false_of_weak resolvingFrontend (initialState weakDecl) rfl⟩

/-- C8: rule 10, for every declaration that passes checks 1 to 9.  (a) If its
intent is not `PINLINEalways` and its body has more than 10 statements,
`defineAsExternallyAvailable` returns false and leaves the state as it was.
(b) If its intent is `PINLINEalways`, whatever the statement count, the call is
the speculative step: its result is that of `semanticAnalysis`, and in the state
it returns in `functionSemantic3` has been called once more. -/
theorem defineAsExternallyAvailable_rule10 (fe : Frontend) (s : State) (body : Statement)
    (h19 : passesChecks1to9 fe s.fdecl = true) (hbody : s.fdecl.fbody = some body) :
    (s.fdecl.inlining ≠ PINLINE.PINLINEalways → 10 < body.count →
      defineAsExternallyAvailable fe s = some (false, s)) ∧
    (s.fdecl.inlining = PINLINE.PINLINEalways →
      defineAsExternallyAvailable fe s = semanticAnalysis fe s ∧
      ∀ b s1, defineAsExternallyAvailable fe s = some (b, s1) →
        s1.semantic3Calls = s.semantic3Calls + 1) := by
  constructor
  · intro hne hcount
    apply defineAsExternallyAvailable_of_not_reaches
    unfold reachesSemanticAnalysis
    rw [h19, isInlineCandidate_eq s.fdecl body hbody]
    have hd : decide (body.count ≤ 10) = false := by
      simp only [decide_eq_false_iff_not]; omega
    rw [hd]
    simp only [Bool.true_and, Bool.or_eq_false_iff, beq_eq_false_iff_ne, ne_eq]
    exact ⟨hne, by simp⟩
  · intro ha
    have hr : reachesSemanticAnalysis fe s.fdecl = true := by
      unfold reachesSemanticAnalysis
      rw [h19, ha]
      rfl
    have he := defineAsExternallyAvailable_of_reaches fe s hr
    refine ⟨he, ?_⟩
    intro b s1 h
    rw [he] at h
    rw [semanticAnalysis_state fe s s1 b h]
    rfl

/-- C8, witness: an imported function of 11 statements is rejected unresolved
with default intent, and is resolved and accepted with intent `PINLINEalways`. -/
theorem defineAsExternallyAvailable_rule10_witness :
    body11.count = 11 ∧
    defineAsExternallyAvailable resolvingFrontend
        (initialState (importedDeclWith PINLINE.PINLINEdefault body11))
      = some (false, initialState (importedDeclWith PINLINE.PINLINEdefault body11)) ∧
    (defineAsExternallyAvailable resolvingFrontend
        (initialState (importedDeclWith PINLINE.PINLINEalways body11))
      = semanticAnalysis resolvingFrontend
        (initialState (importedDeclWith PINLINE.PINLINEalways body11)) ∧
      ∀ b s1, defineAsExternallyAvailable resolvingFrontend
          (initialState (importedDeclWith PINLINE.PINLINEalways body11)) = some (b, s1) →
        s1.semantic3Calls
          = (initialState (importedDeclWith PINLINE.PINLINEalways body11)).semantic3Calls + 1) ∧
    (defineAsExternallyAvailable resolvingFrontend
        (initialState (importedDeclWith PINLINE.PINLINEalways body11))).map Prod.fst
      = some true :=
  ⟨by decide,
    (defineAsExternallyAvailable_rule10 resolvingFrontend
      (initialState (importedDeclWith PINLINE.PINLINEdefault body11)) body11
      (by decide) rfl).1 (by decide) (by decide),
    (defineAsExternallyAvailable_rule10 resolvingFrontend
      (initialState (importedDeclWith PINLINE.PINLINEalways body11)) body11
      (by decide) rfl).2 rfl,
    by decide⟩

/-- C9: with the global toggle `willCrossModuleInline()` off, for every
declaration, always-inline ones included, `defineAsExternallyAvailable` returns
false and leaves the whole state (declaration, suppression state, count of
`functionSemantic3` calls) as it was. -/
theorem defineAsExternallyAvailable_false_of_toggle_off (fe : Frontend) (s : State)
    (h : fe.willCrossModuleInline = false) :
    defineAsExternallyAvailable fe s = some (false, s) := by
  refine defineAsExternallyAvailable_of_not_reaches fe s (not_reaches_of fe s.fdecl ?_)
  simp only [h, true_or, or_true]

/-- C9, witness: an always-inline imported function of 2 statements, toggle
off. -/
theorem defineAsExternallyAvailable_false_of_toggle_off_witness :
    disabledFrontend.willCrossModuleInline = false ∧
    (importedDeclWith PINLINE.PINLINEalways body2).inlining = PINLINE.PINLINEalways ∧
    defineAsExternallyAvailable disabledFrontend
        (initialState (importedDeclWith PINLINE.PINLINEalways body2))
      = some (false, initialState (importedDeclWith PINLINE.PINLINEalways body2)) :=
  ⟨rfl, rfl, defineAsExternallyAvailable_false_of_toggle_off disabledFrontend
    (initialState (importedDeclWith PINLINE.PINLINEalways body2)) rfl⟩

/-- C10: for every declaration marked never-inline, by its `neverInline` flag or
by the intent `PINLINEnever`, `defineAsExternallyAvailable` returns false and
leaves the state, the count of `functionSemantic3` calls included, as it was;
nothing overrides the mark, the intent `PINLINEalways` next to a set
`neverInline` flag included. -/
theorem defineAsExternallyAvailable_false_of_neverInline (fe : Frontend) (s : State)
    (h : s.fdecl.neverInline = true ∨ s.fdecl.inlining = PINLINE.PINLINEnever) :
    defineAsExternallyAvailable fe s = some (false, s) := by
  refine defineAsExternallyAvailable_of_not_reaches fe s (not_reaches_of fe s.fdecl ?_)
  rcases h with h | h
  · simp only [h, true_or, or_true]
  · simp only [h, true_or, or_true]

/-- C10, witness: an imported function whose `neverInline` flag is set and whose
intent is `PINLINEalways`, and one whose intent is `PINLINEnever`. -/
theorem defineAsExternallyAvailable_false_of_neverInline_witness :
    (neverInlineDecl.neverInline = true ∧ neverInlineDecl.inlining = PINLINE.PINLINEalways) ∧
    defineAsExternallyAvailable resolvingFrontend (initialState neverInlineDecl)
      = some (false, initialState neverInlineDecl) ∧
    defineAsExternallyAvailable resolvingFrontend
        (initialState (importedDeclWith PINLINE.PINLINEnever body2))
      = some (false, initialState (importedDeclWith PINLINE.PINLINEnever body2)) :=
  ⟨⟨rfl, rfl⟩,
    defineAsExternallyAvailable_false_of_neverInline resolvingFrontend
      (initialState neverInlineDecl) (Or.inl rfl),
    defineAsExternallyAvailable_false_of_neverInline resolvingFrontend
      (initialState (importedDeclWith PINLINE.PINLINEnever body2)) (Or.inr rfl)⟩

/-- A declaration without a body does not reach the speculative step. -/
theorem not_reaches_of_no_body (fe : Frontend) (fdecl : FuncDeclaration)
    (h : fdecl.fbody = none) : reachesSemanticAnalysis fe fdecl = false := by
  rw [Bool.eq_false_iff]
  intro hr
  obtain ⟨body, hb⟩ :=
    fbody_of_passesChecks1to9 fe fdecl (passesChecks1to9_of_reaches fe fdecl hr)
  rw [h] at hb
  exact Option.noConfusion hb

/-- C11: for every declaration that is a unit-test declaration, an alias-only
declaration or has no body, whatever its other attributes,
`defineAsExternallyAvailable` returns false and leaves the state, the count of
`functionSemantic3` calls included, as it was.  Since the call returns, the
absent body is not dereferenced: a null dereference is the result `none`, and
`isInlineCandidate`, the only place that dereferences `fbody`, returns `none`
on such a declaration. -/
theorem defineAsExternallyAvailable_false_of_unittest_alias_or_no_body (fe : Frontend)
    (s : State)
    (h : s.fdecl.isUnitTestDeclaration = true ∨ s.fdecl.isFuncAliasDeclaration = true ∨
      s.fdecl.fbody = none) :
    defineAsExternallyAvailable fe s = some (false, s) ∧
    (s.fdecl.fbody = none → isInlineCandidate s.fdecl = none) := by
  constructor
  · apply defineAsExternallyAvailable_of_not_reaches
    rcases h with h | h | h
    · exact not_reaches_of fe s.fdecl (by simp only [h, true_or, or_true])
    · exact not_reaches_of fe s.fdecl (by simp only [h, true_or, or_true])
    · exact not_reaches_of_no_body fe s.fdecl h
  · intro hb
    unfold isInlineCandidate
    simp only [hb]

/-- C11, witness: a unit-test declaration of one statement, an always-inline
alias and a declaration without a body, all three under a frontend whose
resolution would succeed. -/
theorem defineAsExternallyAvailable_false_of_unittest_alias_or_no_body_witness :
    defineAsExternallyAvailable resolvingFrontend (initialState unitTestDecl)
      = some (false, initialState unitTestDecl) ∧
    defineAsExternallyAvailable resolvingFrontend (initialState aliasDecl)
      = some (false, initialState aliasDecl) ∧
    (bodylessDecl.fbody = none ∧
      defineAsExternallyAvailable resolvingFrontend (initialState bodylessDecl)
        = some (false, initialState bodylessDecl) ∧
      isInlineCandidate bodylessDecl = none) :=
  ⟨(defineAsExternallyAvailable_false_of_unittest_alias_or_no_body resolvingFrontend
      (initialState unitTestDecl) (Or.inl rfl)).1,
    (defineAsExternallyAvailable_false_of_unittest_alias_or_no_body resolvingFrontend
      (initialState aliasDecl) (Or.inr (Or.inl rfl))).1,
    rfl,
    (defineAsExternallyAvailable_false_of_unittest_alias_or_no_body resolvingFrontend
      (initialState bodylessDecl) (Or.inr (Or.inr rfl))).1,
    (defineAsExternallyAvailable_false_of_unittest_alias_or_no_body resolvingFrontend
      (initialState bodylessDecl) (Or.inr (Or.inr rfl))).2 rfl⟩

/-- C12: bounded cost.  For a body of `c` statements and a threshold `t` below
the unsigned maximum, the walk under `MoreThanXStatements(t)` calls
`visit(Statement *)` at most `t + 1` times and ends with `count = min c (t + 1)`.
The count equals the number of calls, which is counted without wrapping, so the
`unsigned` counter has not wrapped and is at most `t + 1`, below `2 ^ 32`. -/
theorem walk_bounded_cost (body : Statement) (t : Nat) (ht : t < UINT_MAX) :
    (RecursiveWalker.visitStatement (MoreThanXStatements.new t) body).visitCalls ≤ t + 1 ∧
    (RecursiveWalker.visitStatement (MoreThanXStatements.new t) body).count
      = min body.count (t + 1) ∧
    (RecursiveWalker.visitStatement (MoreThanXStatements.new t) body).count
      = (RecursiveWalker.visitStatement (MoreThanXStatements.new t) body).visitCalls ∧
    (RecursiveWalker.visitStatement (MoreThanXStatements.new t) body).count < 2 ^ 32 ∧
    (RecursiveWalker.visitStatement (MoreThanXStatements.new t) body).stop
      = decide (t < body.count) := by
  obtain ⟨_, b, c, d⟩ :=
    walk_visitStatement_result body (MoreThanXStatements.new t) rfl (Nat.zero_le _) ht
  have hc0 : (MoreThanXStatements.new t).count = 0 := rfl
  have hv0 : (MoreThanXStatements.new t).visitCalls = 0 := rfl
  have ht0 : (MoreThanXStatements.new t).threshold = t := rfl
  rw [hc0, ht0] at b c
  rw [hc0, hv0, ht0] at d
  rw [Nat.zero_add] at b c d
  unfold UINT_MAX at ht
  refine ⟨by omega, b, by omega, by omega, c⟩

/-- C12, witness: with the threshold 10 of `isInlineCandidate`, a body of 22
statements is left after 11 calls, and a body of 2 statements takes 2. -/
theorem walk_bounded_cost_witness :
    body22.count = 22 ∧
    (RecursiveWalker.visitStatement (MoreThanXStatements.new 10) body22).visitCalls = 11 ∧
    (RecursiveWalker.visitStatement (MoreThanXStatements.new 10) body22).count = 11 ∧
    (RecursiveWalker.visitStatement (MoreThanXStatements.new 10) body2).visitCalls = 2 ∧
    ((RecursiveWalker.visitStatement (MoreThanXStatements.new 10) body22).visitCalls ≤ 10 + 1 ∧
      (RecursiveWalker.visitStatement (MoreThanXStatements.new 10) body22).count
        = min body22.count (10 + 1) ∧
      (RecursiveWalker.visitStatement (MoreThanXStatements.new 10) body22).count
        = (RecursiveWalker.visitStatement (MoreThanXStatements.new 10) body22).visitCalls ∧
      (RecursiveWalker.visitStatement (MoreThanXStatements.new 10) body22).count < 2 ^ 32 ∧
      (RecursiveWalker.visitStatement (MoreThanXStatements.new 10) body22).stop
        = decide (10 < body22.count)) :=
  ⟨by decide, by decide, by decide, by decide, walk_bounded_cost body22 10 (by decide)⟩

/-! ## Lemmas on the paths through the gate -/

/-- Reaching the speculative step, spelled out on the frontend and the
declaration. -/
theorem reachesSemanticAnalysis_iff (fe : Frontend) (fdecl : FuncDeclaration) :
    reachesSemanticAnalysis fe fdecl = true ↔
      307 ≤ fe.LDC_LLVM_VER ∧ fe.willCrossModuleInline = true ∧ fdecl.neverInline = false ∧
      fdecl.inlining ≠ PINLINE.PINLINEnever ∧ fdecl.isUnitTestDeclaration = false ∧
      fdecl.isFuncAliasDeclaration = false ∧ fdecl.isInvariantDeclaration = false ∧
      fdecl.getModule.ident ≠ Id.object ∧
      fdecl.semanticRun.toNat < PASS.PASSsemantic3.toNat ∧
      alreadyOrWillBeDefined fdecl = false ∧ fdecl.hasWeakUDA = false ∧
      ∃ body, fdecl.fbody = some body ∧
        (fdecl.inlining = PINLINE.PINLINEalways ∨ body.count ≤ 10) := by
  constructor
  · intro hr
    have hp := passesChecks1to9_of_reaches fe fdecl hr
    obtain ⟨h0, h1, h2, h3, h4, h5, h7, h8, h9, h10, h11⟩ := passesChecks1to9_elim fe fdecl hp
    obtain ⟨body, hb⟩ := fbody_of_passesChecks1to9 fe fdecl hp
    refine ⟨h0, h1, h2, h3, h4, h5, h7, h8, h9, h10, h11, body, hb, ?_⟩
    unfold reachesSemanticAnalysis at hr
    rw [hp, isInlineCandidate_eq fdecl body hb] at hr
    simp only [Bool.true_and, Bool.or_eq_true, beq_iff_eq, Option.some.injEq,
      decide_eq_true_eq] at hr
    exact hr
  · rintro ⟨h0, h1, h2, h3, h4, h5, h7, h8, h9, h10, h11, body, hb, h12⟩
    have hp : passesChecks1to9 fe fdecl = true := by
      unfold passesChecks1to9
      simp only [Bool.and_eq_true, decide_eq_true_eq, Bool.not_eq_true', bne_iff_ne, ne_eq]
      refine ⟨⟨⟨⟨⟨⟨⟨⟨⟨⟨⟨h0, h1⟩, h2⟩, h3⟩, h4⟩, h5⟩, ?_⟩, h7⟩, h8⟩, h9⟩, h10⟩, h11⟩
      rw [hb]; rfl
    unfold reachesSemanticAnalysis
    rw [hp, isInlineCandidate_eq fdecl body hb]
    simp only [Bool.true_and, Bool.or_eq_true, beq_iff_eq, Option.some.injEq,
      decide_eq_true_eq]
    exact h12

/-- A declaration whose intent is not `PINLINEalways` and whose body has more than
10 statements does not reach the speculative step. -/
theorem not_reaches_of_too_large (fe : Frontend) (fdecl : FuncDeclaration) (body : Statement)
    (ha : fdecl.inlining ≠ PINLINE.PINLINEalways) (hb : fdecl.fbody = some body)
    (hc : 10 < body.count) : reachesSemanticAnalysis fe fdecl = false := by
  rw [Bool.eq_false_iff]
  intro hr
  obtain ⟨_, _, _, _, _, _, _, _, _, _, _, body1, hb1, h12⟩ :=
    (reachesSemanticAnalysis_iff fe fdecl).mp hr
  rw [hb] at hb1
  have hbb : body = body1 := Option.some.inj hb1
  subst hbb
  rcases h12 with h | h
  · exact ha h
  · omega

/-- Some policy check rejects the declaration exactly when it does not reach the
speculative step. -/
theorem failsPolicyCheck_iff (fe : Frontend) (fdecl : FuncDeclaration) :
    failsPolicyCheck fe fdecl ↔ reachesSemanticAnalysis fe fdecl = false := by
  constructor
  · intro h
    unfold failsPolicyCheck at h
    rcases h with h | h | h | h | h | h | h | h | h | h | h | h | h
    · exact not_reaches_of fe fdecl (Or.inl h)
    · exact not_reaches_of fe fdecl (by simp only [h, true_or, or_true])
    · exact not_reaches_of fe fdecl (by simp only [h, true_or, or_true])
    · exact not_reaches_of fe fdecl (by simp only [h, true_or, or_true])
    · exact not_reaches_of fe fdecl (by simp only [h, true_or, or_true])
    · exact not_reaches_of fe fdecl (by simp only [h, true_or, or_true])
    · exact not_reaches_of_no_body fe fdecl h
    · exact not_reaches_of fe fdecl (by simp only [h, true_or, or_true])
    · exact not_reaches_of fe fdecl (by simp only [h, true_or, or_true])
    · exact not_reaches_of fe fdecl (by simp only [h, true_or, or_true])
    · exact not_reaches_of fe fdecl (by simp only [h, true_or, or_true])
    · exact not_reaches_of fe fdecl (by simp only [h, true_or, or_true])
    · obtain ⟨ha, body, hb, hc⟩ := h
      exact not_reaches_of_too_large fe fdecl body ha hb hc
  · intro h
    by_contra hn
    unfold failsPolicyCheck at hn
    simp only [not_or] at hn
    obtain ⟨n0, n1, n2, n3, n4, n5, n6, n7, n8, n9, n10, n11, n12⟩ := hn
    have hr : reachesSemanticAnalysis fe fdecl = true := by
      rw [reachesSemanticAnalysis_iff]
      obtain ⟨body, hb⟩ : ∃ body, fdecl.fbody = some body := by
        cases hb : fdecl.fbody
        · exact absurd hb n6
        · exact ⟨_, rfl⟩
      refine ⟨by omega, by simpa using n1, by simpa using n2, n3, by simpa using n4,
        by simpa using n5, by simpa using n7, n8, by omega, by simpa using n10,
        by simpa using n11, body, hb, ?_⟩
      by_cases ha : fdecl.inlining = PINLINE.PINLINEalways
      · exact Or.inl ha
      · right
        by_contra hc
        exact n12 ⟨ha, body, hb, by omega⟩
    rw [h] at hr
    exact Bool.noConfusion hr

/-- The three ways a call can go: a policy check rejects the declaration and
nothing changes; or the speculative step runs and returns, in the state
`stateAfterAnalysis`; or the speculative step runs and the `assert` of line 204
fails, in a build that keeps it, after a resolution that succeeded without a
diagnostic. -/
theorem defineAsExternallyAvailable_cases (fe : Frontend) (s : State) :
    (reachesSemanticAnalysis fe s.fdecl = false ∧
      defineAsExternallyAvailable fe s = some (false, s)) ∨
    (reachesSemanticAnalysis fe s.fdecl = true ∧
      ∃ b, defineAsExternallyAvailable fe s = some (b, stateAfterAnalysis fe s)) ∨
    (reachesSemanticAnalysis fe s.fdecl = true ∧
      defineAsExternallyAvailable fe s = none ∧
      (semantic3Outcome fe s).result = true ∧ diagnosticsRecorded fe s = 0 ∧
      (resolvedDecl fe s).semanticRun.toNat < PASS.PASSsemantic3done.toNat) := by
  cases hr : reachesSemanticAnalysis fe s.fdecl
  · exact Or.inl ⟨rfl, defineAsExternallyAvailable_of_not_reaches fe s hr⟩
  · right
    rw [defineAsExternallyAvailable_of_reaches fe s hr, semanticAnalysis_eq]
    by_cases h1 : diagnosticsRecorded fe s ≠ 0 ∨ (semantic3Outcome fe s).result = false
    · rw [if_pos h1]
      exact Or.inl ⟨rfl, false, rfl⟩
    · rw [if_neg h1]
      simp only [not_or, ne_eq, not_not, Bool.not_eq_false] at h1
      by_cases h2 : fe.NDEBUG = false ∧
          ¬ PASS.PASSsemantic3done.toNat ≤ (resolvedDecl fe s).semanticRun.toNat
      · rw [if_pos h2]
        exact Or.inr ⟨rfl, rfl, h1.2, h1.1, by omega⟩
      · rw [if_neg h2]
        by_cases h3 : (resolvedDecl fe s).naked = true
        · rw [if_pos h3]
          exact Or.inl ⟨rfl, false, rfl⟩
        · rw [if_neg h3]
          exact Or.inl ⟨rfl, true, rfl⟩

/-! ## The suppression scope and the state -/

/-- C13: the error-suppression scope is closed on every exit path.  For every
frontend and state, either `defineAsExternallyAvailable` returns, and then the
suppression depth `gag` of the state it returns in equals the depth at entry,
whatever the verdict and the outcome of resolution; or it does not return at
all, which happens only when the `assert` of line 204 fails, after `endGagging`,
on a resolution that succeeded without a diagnostic. -/
theorem defineAsExternallyAvailable_restores_gag (fe : Frontend) (s : State) :
    (∃ b s1, defineAsExternallyAvailable fe s = some (b, s1) ∧
      s1.global.gag = s.global.gag) ∨
    (defineAsExternallyAvailable fe s = none ∧
      (semantic3Outcome fe s).result = true ∧ diagnosticsRecorded fe s = 0 ∧
      (resolvedDecl fe s).semanticRun.toNat < PASS.PASSsemantic3done.toNat) := by
  rcases defineAsExternallyAvailable_cases fe s with h | h | h
  · exact Or.inl ⟨false, s, h.2, rfl⟩
  · obtain ⟨_, b, hb⟩ := h
    exact Or.inl ⟨b, stateAfterAnalysis fe s, hb, rfl⟩
  · exact Or.inr h.2

/-- C13, examples: entered at depth 1, the call returns at depth 1 when
resolution succeeds, when it fails with diagnostics, when only the deferred pass
emits a diagnostic, when the function turns out naked and when a policy check
rejects the declaration. -/
theorem defineAsExternallyAvailable_restores_gag_witness :
    (flaggedState importedDecl).global.gag = 1 ∧
    (defineAsExternallyAvailable resolvingFrontend (flaggedState importedDecl)).map
      (fun r => (r.1, r.2.global.gag)) = some (true, 1) ∧
    (defineAsExternallyAvailable failingFrontend (flaggedState importedDecl)).map
      (fun r => (r.1, r.2.global.gag)) = some (false, 1) ∧
    (defineAsExternallyAvailable deferredDiagnosticFrontend (flaggedState importedDecl)).map
      (fun r => (r.1, r.2.global.gag)) = some (false, 1) ∧
    (defineAsExternallyAvailable nakedFrontend (flaggedState importedDecl)).map
      (fun r => (r.1, r.2.global.gag)) = some (false, 1) ∧
    (defineAsExternallyAvailable resolvingFrontend (flaggedState weakDecl)).map
      (fun r => (r.1, r.2.global.gag)) = some (false, 1) ∧
    ((∃ b s1, defineAsExternallyAvailable nakedFrontend (flaggedState importedDecl)
        = some (b, s1) ∧ s1.global.gag = (flaggedState importedDecl).global.gag) ∨
      (defineAsExternallyAvailable nakedFrontend (flaggedState importedDecl) = none ∧
        (semantic3Outcome nakedFrontend (flaggedState importedDecl)).result = true ∧
        diagnosticsRecorded nakedFrontend (flaggedState importedDecl) = 0 ∧
        (resolvedDecl nakedFrontend (flaggedState importedDecl)).semanticRun.toNat
          < PASS.PASSsemantic3done.toNat)) :=
  ⟨rfl, by decide, by decide, by decide, by decide, by decide,
    defineAsExternallyAvailable_restores_gag nakedFrontend (flaggedState importedDecl)⟩

/-- C14: purity outside verification.  When some policy check rejects the
declaration, `defineAsExternallyAvailable` returns false and the whole state
(declaration and its stage, suppression depth, `gaggedForInlining`, error
counters, count of `functionSemantic3` calls) is as at entry.  Conversely, a
call that returns in a state other than the one it was entered in has passed
every policy check and has called `functionSemantic3` once. -/
theorem defineAsExternallyAvailable_pure_outside_verification (fe : Frontend) (s : State) :
    (failsPolicyCheck fe s.fdecl → defineAsExternallyAvailable fe s = some (false, s)) ∧
    (∀ b s1, defineAsExternallyAvailable fe s = some (b, s1) → s1 ≠ s →
      ¬ failsPolicyCheck fe s.fdecl ∧ s1.semantic3Calls = s.semantic3Calls + 1) := by
  constructor
  · intro h
    exact defineAsExternallyAvailable_of_not_reaches fe s ((failsPolicyCheck_iff fe s.fdecl).mp h)
  · intro b s1 h hne
    rcases defineAsExternallyAvailable_cases fe s with h1 | h1 | h1
    · rw [h1.2] at h
      simp only [Option.some.injEq, Prod.mk.injEq] at h
      exact absurd h.2.symm hne
    · obtain ⟨hr, b1, hb⟩ := h1
      rw [hb] at h
      simp only [Option.some.injEq, Prod.mk.injEq] at h
      refine ⟨?_, ?_⟩
      · rw [failsPolicyCheck_iff, hr]
        exact Bool.noConfusion
      · rw [← h.2]
        rfl
    · rw [h1.2.1] at h
      exact Option.noConfusion h

/-- C14, witness: a declaration of 11 statements with default intent fails
check 10 and the state, entered inside an open scope with the flag set, is
returned as it was; the same declaration with 2 statements passes every check
and comes back changed. -/
theorem defineAsExternallyAvailable_pure_outside_verification_witness :
    failsPolicyCheck resolvingFrontend
      (flaggedState (importedDeclWith PINLINE.PINLINEdefault body11)).fdecl ∧
    defineAsExternallyAvailable resolvingFrontend
        (flaggedState (importedDeclWith PINLINE.PINLINEdefault body11))
      = some (false, flaggedState (importedDeclWith PINLINE.PINLINEdefault body11)) ∧
    (¬ failsPolicyCheck resolvingFrontend (flaggedState importedDecl).fdecl ∧
      (stateAfterAnalysis resolvingFrontend (flaggedState importedDecl)).semantic3Calls
        = (flaggedState importedDecl).semantic3Calls + 1) :=
  have hf : failsPolicyCheck resolvingFrontend
      (flaggedState (importedDeclWith PINLINE.PINLINEdefault body11)).fdecl :=
    (failsPolicyCheck_iff _ _).mpr (by decide)
  ⟨hf,
    (defineAsExternallyAvailable_pure_outside_verification resolvingFrontend
      (flaggedState (importedDeclWith PINLINE.PINLINEdefault body11))).1 hf,
    (defineAsExternallyAvailable_pure_outside_verification resolvingFrontend
      (flaggedState importedDecl)).2 true
      (stateAfterAnalysis resolvingFrontend (flaggedState importedDecl)) rfl
      (fun h => absurd (congrArg State.semantic3Calls h) (by decide))⟩

/-- C17: `gaggedForInlining` is cleared, not restored.  On a path that does not
reach the speculative step the call returns with the state, the flag included,
as it was.  On a path that reaches it, either the call returns, and then the flag
is false in the state it returns in whatever it was at entry, so that it equals
its entry value exactly when that was false; or the `assert` of line 204
fails and the call does not return. -/
theorem defineAsExternallyAvailable_clears_gaggedForInlining (fe : Frontend) (s : State) :
    (reachesSemanticAnalysis fe s.fdecl = false →
      defineAsExternallyAvailable fe s = some (false, s)) ∧
    (reachesSemanticAnalysis fe s.fdecl = true →
      (∃ b s1, defineAsExternallyAvailable fe s = some (b, s1) ∧
        s1.global.gaggedForInlining = false ∧
        (s1.global.gaggedForInlining = s.global.gaggedForInlining ↔
          s.global.gaggedForInlining = false)) ∨
      (defineAsExternallyAvailable fe s = none ∧
        (semantic3Outcome fe s).result = true ∧ diagnosticsRecorded fe s = 0 ∧
        (resolvedDecl fe s).semanticRun.toNat < PASS.PASSsemantic3done.toNat)) := by
  constructor
  · intro hr
    exact defineAsExternallyAvailable_of_not_reaches fe s hr
  · intro hr
    rcases defineAsExternallyAvailable_cases fe s with h | h | h
    · rw [hr] at h
      exact Bool.noConfusion h.1
    · obtain ⟨_, b, hb⟩ := h
      refine Or.inl ⟨b, stateAfterAnalysis fe s, hb, rfl, ?_⟩
      show false = s.global.gaggedForInlining ↔ s.global.gaggedForInlining = false
      exact eq_comm
    · exact Or.inr h.2

/-- C17, witness: entered with the flag set, the call that resolves the imported
function returns with the flag cleared, and the call a policy check rejects
returns with the flag still set. -/
theorem defineAsExternallyAvailable_clears_gaggedForInlining_witness :
    (flaggedState importedDecl).global.gaggedForInlining = true ∧
    (defineAsExternallyAvailable resolvingFrontend (flaggedState importedDecl)).map
      (fun r => (r.1, r.2.global.gaggedForInlining)) = some (true, false) ∧
    (defineAsExternallyAvailable failingFrontend (flaggedState importedDecl)).map
      (fun r => (r.1, r.2.global.gaggedForInlining)) = some (false, false) ∧
    defineAsExternallyAvailable resolvingFrontend (flaggedState weakDecl)
      = some (false, flaggedState weakDecl) :=
  ⟨rfl, by decide, by decide,
    (defineAsExternallyAvailable_clears_gaggedForInlining resolvingFrontend
      (flaggedState weakDecl)).1 (by decide)⟩

/-! ## The verdict -/

/-- C16: the second toggle test is dead.  With `willCrossModuleInline()` giving
one value throughout the call, `defineAsExternallyAvailable` has the same result,
verdict and state, as the function without the branch
`else if (!willCrossModuleInline())`; in particular with the toggle off the
verdict is false for an always-inline declaration as for any other. -/
theorem defineAsExternallyAvailable_eq_withoutSecondTest (fe : Frontend) (s : State) :
    defineAsExternallyAvailable fe s = defineAsExternallyAvailableWithoutSecondTest fe s := by
  unfold defineAsExternallyAvailable defineAsExternallyAvailableWithoutSecondTest
  generalize semanticAnalysis fe s = r
  simp only []
  by_cases h0 : fe.LDC_LLVM_VER < 307
  · rw [if_pos h0, if_pos h0]
  rw [if_neg h0, if_neg h0]
  by_cases h1 : (!fe.willCrossModuleInline) = true
  · rw [if_pos h1, if_pos h1]
  rw [if_neg h1, if_neg h1]
  by_cases h2 : (s.fdecl.neverInline || s.fdecl.inlining == PINLINE.PINLINEnever) = true
  · rw [if_pos h2, if_pos h2]
  rw [if_neg h2, if_neg h2]
  have h3 : ¬ (!(s.fdecl.inlining == PINLINE.PINLINEalways) && !fe.willCrossModuleInline) = true := by
    intro h
    rw [Bool.and_eq_true] at h
    exact h1 h.2
  rw [if_neg h3]

end FunctionInlining
